import Mathlib

/-!
Verification of the upload-convert-preview pipeline controller of the
single-page video-conversion client (src/app/page.tsx).

The controller is shallowly embedded as pure functions over an explicit
state record `Ctl`.  React state setters become record updates; object-URL
allocation is modelled by a fresh-handle counter `nextUrl` together with a
log `urls` of every allocation and a list `revoked` of every released
handle; the asynchronous engine steps (bootstrap, fetchFile, virtual
filesystem writes and reads, exec) are resolved by an environment record
`Env` giving each awaited step an `Except` outcome, and the progress
callbacks delivered during `exec` are given as the list
`Env.progressEvents` of engine fractions.  Every engine interaction is
logged in a `Trace` so that claims about "no engine interaction" and about
the order of stage and progress updates can be stated.
-/

/-- The Stage union type of page.tsx. -/
inductive Stage where
  | idle
  | loadingCore
  | ready
  | processing
  | complete
  | error
deriving DecidableEq, BEq, Repr

/-- A user-selected file; only its name is inspected by the controller
(the byte content is delivered by the `fetchFile` step of `Env`). -/
structure VFile where
  name : String
deriving DecidableEq, Repr

/-- What a created object URL points to: either a selected file or a blob
built from output bytes with a MIME type. -/
inductive UrlSrc where
  | file (f : VFile)
  | blob (data : List Nat) (type : String)
deriving DecidableEq, Repr

/-- One logged interaction with the ffmpeg engine. -/
inductive EngineCall where
  | load
  | deleteFile (name : String)
  | writeFile (name : String) (data : List Nat)
  | exec (args : List String)
  | readFile (name : String)
deriving DecidableEq, Repr

/-- A thrown JavaScript value: `some m` is an Error with message `m`,
`none` is a thrown non-Error value. -/
abbrev JsErr := Option String

/-- The component state of HomePage, plus the bookkeeping needed to model
object-URL lifecycle (fresh counter, allocation log, revocation log) and
engine-handle identity (fresh counter). -/
structure Ctl where
  stage : Stage
  stageMessage : String
  progress : Int
  sourceUrl : Option Nat
  resultUrl : Option Nat
  fileName : Option String
  error : Option String
  ffmpeg : Option Nat
  fileRef : Option VFile
  nextUrl : Nat
  nextEngine : Nat
  revoked : List Nat
  urls : List (Nat × UrlSrc)
deriving DecidableEq, Repr

/-- Outcomes of the awaited steps of one conversion attempt.  The two
staged `deleteFile` calls before `writeFile` are each wrapped in their own
try/catch that ignores the error, so their outcomes are recorded but never
inspected; the cleanup pair after `readFile` shares one try/catch, so a
failure of the first delete skips the second. -/
structure Env where
  loadResult : Except JsErr Unit
  fetchResult : Except JsErr (List Nat)
  delInputResult : Except JsErr Unit
  delOutputResult : Except JsErr Unit
  writeResult : Except JsErr Unit
  execResult : Except JsErr Unit
  readResult : Except JsErr (List Nat)
  delCleanup1 : Except JsErr Unit
  delCleanup2 : Except JsErr Unit
  progressEvents : List Rat

/-- Log of the observable activity of one handler invocation: engine
calls, setStage values, and setProgress values, each in order. -/
structure Trace where
  calls : List EngineCall
  stages : List Stage
  progresses : List Int
deriving DecidableEq, Repr

def Trace.append (a b : Trace) : Trace :=
  ⟨a.calls ++ b.calls, a.stages ++ b.stages, a.progresses ++ b.progresses⟩

instance : Append Trace := ⟨Trace.append⟩

def emptyTrace : Trace := ⟨[], [], []⟩

/-- Trace contribution of the top-level catch handler (setStage error). -/
def tError : Trace := ⟨[], [Stage.error], []⟩

/-! String constants of page.tsx. -/

def HUMANIZING_FILTER : String :=
  "fps=min(30\\,fps),scale=iw:ih:flags=bicubic,eq=contrast=1.12:brightness=0.02:saturation=1.28:gamma=1.03," ++
  "unsharp=5:5:0.85:5:5:0.35,noise=alls=12:allf=t+u,format=yuv420p"

def validationMsg : String := "Upload an animated clip first."

def errFallback : String := "Unexpected error while converting video."

def catchStageMsg : String := "Something went wrong during video conversion."

def msgBoot : String := "Booting accelerated video core…"

def msgCoreReady : String := "Core ready. Press “Convert” to photorealize your footage."

def msgProcessing : String := "Re-lighting frames and rebuilding photoreal surfaces…"

def msgSynth : String := "Synthesizing photoreal motion…"

def msgFinal : String := "Finalizing filmic grading…"

def msgDone : String := "Done. Compare the photoreal render against the original."

def msgReadyFile : String := "Ready to rebuild lighting and texture realism."

/-- The fixed output name of the conversion. -/
def outputName : String := "realified.mp4"

/-- The message set by the error branch of the catch:
`conversionError instanceof Error ? conversionError.message : fallback`. -/
def errMsgOf (e : JsErr) : String := e.getD errFallback

/-! Filename sanitization (line 110 of page.tsx):
`const inputName = 'source.' + inputFile.name.split('.').pop()?.toLowerCase().replace(/[^a-z0-9]/g, '') || 'mp4';`
Operator precedence makes this `('source.' + ext) || 'mp4'`.  `split`
always returns a non-empty array, so `pop()` is never undefined. -/

/-- JavaScript `split('.')` on a character list: groups between dots, with
empty groups for leading, trailing and adjacent dots (so the result is
always non-empty, and `pop()` never yields undefined). -/
def splitDot : List Char → List (List Char)
  | [] => [[]]
  | c :: cs =>
    if c = '.' then [] :: splitDot cs
    else
      match splitDot cs with
      | [] => [[c]]
      | g :: gs => (c :: g) :: gs

/-- `str.split('.').pop()`: the last dot-separated component. -/
def lastComponent (s : String) : List Char := (splitDot s.toList).getLastD []

/-- `.toLowerCase().replace(/[^a-z0-9]/g, '')`. -/
def sanitizeExt (cs : List Char) : List Char :=
  (cs.map Char.toLower).filter fun c =>
    (decide ('a' ≤ c) && decide (c ≤ 'z')) || (decide ('0' ≤ c) && decide (c ≤ '9'))

/-- JavaScript `a || b` on strings: `a` unless `a` is empty. -/
def jsOrElse (a b : String) : String := if a = "" then b else a

/-- The derived input name, exactly as the source computes it (the
`|| 'mp4'` applies to the whole concatenation, not to the extension). -/
def inputNameOf (name : String) : String :=
  jsOrElse ("source." ++ String.mk (sanitizeExt (lastComponent name))) "mp4"

/-- The fixed exec argument list of the conversion job. -/
def ffmpegArgs (inputName : String) : List String :=
  ["-i", inputName, "-vf", HUMANIZING_FILTER, "-c:v", "libx264",
   "-preset", "veryfast", "-crf", "20", "-c:a", "copy", outputName]

/-- The progress-callback mapping of ensureFFmpeg:
`Math.min(97, Math.round(currentProgress * 100))`
(JavaScript Math.round is the floor of x + 1/2, as is Mathlib round). -/
def mapProgress (p : Rat) : Int := min 97 (round (100 * p))

/-- The stage message written by the progress callback. -/
def progressMsg (v : Int) : String :=
  "Analyzing motion vectors… " ++ toString v ++ "%"

/-- Apply the progress callback for each delivered value in order. -/
def applyProgressEvents (s : Ctl) (vals : List Int) : Ctl :=
  vals.foldl (fun st v => { st with progress := v, stageMessage := progressMsg v }) s

/-- resetUrls: revoke whichever of the two object URLs are present, then
clear both slots. -/
def resetUrls (s : Ctl) : Ctl :=
  { s with
    revoked := s.revoked ++ s.sourceUrl.toList ++ s.resultUrl.toList,
    sourceUrl := none,
    resultUrl := none }

/-- handleFileChange: on an empty selection return immediately; otherwise
reset both preview URLs, clear the error, allocate one object URL for the
file, stage the file and move to ready with progress 0. -/
def handleFileChange (s : Ctl) (file? : Option VFile) : Ctl × Trace :=
  match file? with
  | none => (s, emptyTrace)
  | some file =>
    let s1 := resetUrls s
    let url := s1.nextUrl
    (({ s1 with
        error := none,
        urls := s1.urls ++ [(url, UrlSrc.file file)],
        nextUrl := url + 1,
        fileRef := some file,
        sourceUrl := some url,
        fileName := some file.name,
        stage := Stage.ready,
        stageMessage := msgReadyFile,
        progress := 0 }),
     (⟨[], [Stage.ready], [0]⟩ : Trace))

/-- ensureFFmpeg: return the cached instance if one exists; otherwise
enter loadingCore (progress 5), load the core, cache the new instance and
return to ready with progress 0.  A load failure propagates uncaught. -/
def ensureFFmpeg (s : Ctl) (env : Env) : Except JsErr Nat × Ctl × Trace :=
  match s.ffmpeg with
  | some h => (Except.ok h, s, emptyTrace)
  | none =>
    let s1 := { s with stage := Stage.loadingCore, stageMessage := msgBoot, progress := 5 }
    let t1 : Trace := ⟨[EngineCall.load], [Stage.loadingCore], [5]⟩
    match env.loadResult with
    | Except.error e => (Except.error e, s1, t1)
    | Except.ok _ =>
      let h := s1.nextEngine
      (Except.ok h,
       { s1 with
         ffmpeg := some h,
         nextEngine := s1.nextEngine + 1,
         stage := Stage.ready,
         stageMessage := msgCoreReady,
         progress := 0 },
       t1 ++ (⟨[], [Stage.ready], [0]⟩ : Trace))

/-- The top-level catch handler of handleConvert. -/
def catchWith (s : Ctl) (e : JsErr) : Ctl :=
  { s with
    stage := Stage.error,
    stageMessage := catchStageMsg,
    error := some (errMsgOf e) }

/-- The cleanup deletes after readFile: one shared try/catch, so a failure
of the first delete skips the second and is ignored either way. -/
def cleanupCallsOf (inputName : String) (env : Env) : List EngineCall :=
  match env.delCleanup1 with
  | Except.error _ => [EngineCall.deleteFile inputName]
  | Except.ok _ => [EngineCall.deleteFile inputName, EngineCall.deleteFile outputName]

/-- The body of the try block after the engine is ready: enter processing
(progress 8), fetch the input bytes, best-effort delete the two names,
write the input, exec the fixed job (progress callbacks fire here), set
progress 98, read the output, best-effort delete both names (one shared
try: a first-delete failure skips the second), build the video/mp4 blob,
allocate its object URL into the result slot and complete at 100.  Any
throw falls to the catch handler. -/
def convertBody (s1 : Ctl) (file : VFile) (env : Env) : Ctl × Trace :=
  let s2 := { s1 with
    stage := Stage.processing, stageMessage := msgProcessing, progress := 8, error := none }
  let t2 : Trace := ⟨[], [Stage.processing], [8]⟩
  let inputName := inputNameOf file.name
  match env.fetchResult with
  | Except.error e => (catchWith s2 e, t2 ++ tError)
  | Except.ok data =>
    let t3 := t2 ++ (⟨[EngineCall.deleteFile inputName, EngineCall.deleteFile outputName,
                      EngineCall.writeFile inputName data], [], []⟩ : Trace)
    match env.writeResult with
    | Except.error e => (catchWith s2 e, t3 ++ tError)
    | Except.ok _ =>
      let s3 := { s2 with stageMessage := msgSynth }
      let pvals := env.progressEvents.map mapProgress
      let s4 := applyProgressEvents s3 pvals
      let t4 := t3 ++ (⟨[EngineCall.exec (ffmpegArgs inputName)], [], pvals⟩ : Trace)
      match env.execResult with
      | Except.error e => (catchWith s4 e, t4 ++ tError)
      | Except.ok _ =>
        let s5 := { s4 with stageMessage := msgFinal, progress := 98 }
        let t5 := t4 ++ (⟨[EngineCall.readFile outputName], [], [98]⟩ : Trace)
        match env.readResult with
        | Except.error e => (catchWith s5 e, t5 ++ tError)
        | Except.ok outputData =>
          let cleanupCalls := cleanupCallsOf inputName env
          let url := s5.nextUrl
          let s6 := { s5 with
            urls := s5.urls ++ [(url, UrlSrc.blob outputData "video/mp4")],
            nextUrl := url + 1,
            resultUrl := some url,
            stage := Stage.complete,
            stageMessage := msgDone,
            progress := 100 }
          (s6, t5 ++ (⟨cleanupCalls, [Stage.complete], [100]⟩ : Trace))

/-- handleConvert: with no staged file, set the validation message and
return (no stage change, no engine interaction).  Otherwise run
ensureFFmpeg then the conversion body inside one try/catch whose handler
sets stage error, the fixed stage message and the extracted error
message. -/
def handleConvert (s : Ctl) (env : Env) : Ctl × Trace :=
  match s.fileRef with
  | none => ({ s with error := some validationMsg }, emptyTrace)
  | some file =>
    match ensureFFmpeg s env with
    | (Except.error e, s1, t1) => (catchWith s1 e, t1 ++ tError)
    | (Except.ok _, s1, t1) =>
      let r := convertBody s1 file env
      (r.1, t1 ++ r.2)

/-- The disabled predicate of the convert button:
`stage === 'processing' || (!fileRef.current && stage !== 'loadingCore')`. -/
def buttonDisabled (stage : Stage) (hasFile : Bool) : Bool :=
  (stage == Stage.processing) || (!hasFile && !(stage == Stage.loadingCore))

/-! Concrete fixtures used by counterexamples and witnesses. -/

def sampleFile : VFile := ⟨"clip.mov"⟩

def stIdle : Ctl :=
  { stage := Stage.idle
    stageMessage := "Drop in an animated clip to begin."
    progress := 0
    sourceUrl := none
    resultUrl := none
    fileName := none
    error := none
    ffmpeg := none
    fileRef := none
    nextUrl := 0
    nextEngine := 0
    revoked := []
    urls := [] }

def envOk : Env :=
  { loadResult := Except.ok ()
    fetchResult := Except.ok [1, 2, 3]
    delInputResult := Except.ok ()
    delOutputResult := Except.ok ()
    writeResult := Except.ok ()
    execResult := Except.ok ()
    readResult := Except.ok [9, 9]
    delCleanup1 := Except.ok ()
    delCleanup2 := Except.ok ()
    progressEvents := [] }

def stReady : Ctl :=
  { stIdle with
    stage := Stage.ready
    fileRef := some sampleFile
    fileName := some "clip.mov"
    sourceUrl := some 0
    nextUrl := 1
    urls := [(0, UrlSrc.file sampleFile)] }

/-- A staged file while the core is still bootstrapping. -/
def stLoading : Ctl := { stReady with stage := Stage.loadingCore }

/-- State right after a first successful conversion: the engine is cached
and the result slot holds object URL 1. -/
def stComplete : Ctl :=
  { stReady with
    stage := Stage.complete
    ffmpeg := some 0
    nextEngine := 1
    resultUrl := some 1
    nextUrl := 2
    urls := [(0, UrlSrc.file sampleFile), (1, UrlSrc.blob [9, 9] "video/mp4")] }

/-- Ready state with the engine already cached. -/
def stCached : Ctl := { stReady with ffmpeg := some 0, nextEngine := 1 }

/-- Successful environment whose engine reports one progress fraction 0. -/
def envZeroEvent : Env := { envOk with progressEvents := [(0 : Rat)] }

/-- Environment whose fetch step throws an Error with message boom. -/
def envFetchFail : Env := { envOk with fetchResult := Except.error (some "boom") }

/-! Helper lemmas. -/

theorem trace_append_calls (a b : Trace) : (a ++ b).calls = a.calls ++ b.calls := rfl

theorem trace_append_stages (a b : Trace) : (a ++ b).stages = a.stages ++ b.stages := rfl

theorem trace_append_progresses (a b : Trace) :
    (a ++ b).progresses = a.progresses ++ b.progresses := rfl

theorem applyProgressEvents_preserves (s : Ctl) (vals : List Int) :
    (applyProgressEvents s vals).stage = s.stage ∧
    (applyProgressEvents s vals).sourceUrl = s.sourceUrl ∧
    (applyProgressEvents s vals).resultUrl = s.resultUrl ∧
    (applyProgressEvents s vals).fileName = s.fileName ∧
    (applyProgressEvents s vals).error = s.error ∧
    (applyProgressEvents s vals).ffmpeg = s.ffmpeg ∧
    (applyProgressEvents s vals).fileRef = s.fileRef ∧
    (applyProgressEvents s vals).nextUrl = s.nextUrl ∧
    (applyProgressEvents s vals).nextEngine = s.nextEngine ∧
    (applyProgressEvents s vals).revoked = s.revoked ∧
    (applyProgressEvents s vals).urls = s.urls := by
  induction vals generalizing s with
  | nil => exact ⟨rfl, rfl, rfl, rfl, rfl, rfl, rfl, rfl, rfl, rfl, rfl⟩
  | cons v vs ih => exact ih { s with progress := v, stageMessage := progressMsg v }

@[simp]
theorem applyPE_resultUrl (s : Ctl) (vals : List Int) :
    (applyProgressEvents s vals).resultUrl = s.resultUrl :=
  (applyProgressEvents_preserves s vals).2.2.1

@[simp]
theorem applyPE_nextUrl (s : Ctl) (vals : List Int) :
    (applyProgressEvents s vals).nextUrl = s.nextUrl :=
  (applyProgressEvents_preserves s vals).2.2.2.2.2.2.2.1

@[simp]
theorem applyPE_revoked (s : Ctl) (vals : List Int) :
    (applyProgressEvents s vals).revoked = s.revoked :=
  (applyProgressEvents_preserves s vals).2.2.2.2.2.2.2.2.2.1

@[simp]
theorem applyPE_urls (s : Ctl) (vals : List Int) :
    (applyProgressEvents s vals).urls = s.urls :=
  (applyProgressEvents_preserves s vals).2.2.2.2.2.2.2.2.2.2

/-- The state entered at the top of the processing body. -/
def processingState (s1 : Ctl) : Ctl :=
  { s1 with stage := Stage.processing, stageMessage := msgProcessing, progress := 8, error := none }

theorem convertBody_fetch_err (s1 : Ctl) (f : VFile) (env : Env) (e : JsErr)
    (hf : env.fetchResult = Except.error e) :
    convertBody s1 f env =
      (catchWith (processingState s1) e, ⟨[], [Stage.processing, Stage.error], [8]⟩) := by
  unfold convertBody
  rw [hf]
  rfl

theorem convertBody_write_err (s1 : Ctl) (f : VFile) (env : Env) (e : JsErr) (d : List Nat)
    (hf : env.fetchResult = Except.ok d) (hw : env.writeResult = Except.error e) :
    convertBody s1 f env =
      (catchWith (processingState s1) e,
       ⟨[EngineCall.deleteFile (inputNameOf f.name), EngineCall.deleteFile outputName,
         EngineCall.writeFile (inputNameOf f.name) d],
        [Stage.processing, Stage.error], [8]⟩) := by
  unfold convertBody
  rw [hf, hw]
  rfl

theorem convertBody_exec_err (s1 : Ctl) (f : VFile) (env : Env) (e : JsErr) (d : List Nat)
    (hf : env.fetchResult = Except.ok d) (hw : env.writeResult = Except.ok ())
    (hx : env.execResult = Except.error e) :
    convertBody s1 f env =
      (catchWith
        (applyProgressEvents { processingState s1 with stageMessage := msgSynth }
          (env.progressEvents.map mapProgress)) e,
       ⟨[EngineCall.deleteFile (inputNameOf f.name), EngineCall.deleteFile outputName,
         EngineCall.writeFile (inputNameOf f.name) d,
         EngineCall.exec (ffmpegArgs (inputNameOf f.name))],
        [Stage.processing, Stage.error],
        8 :: env.progressEvents.map mapProgress⟩) := by
  unfold convertBody
  rw [hf, hw, hx]
  refine Prod.ext rfl ?_
  show Trace.append _ _ = _
  simp [Trace.append, tError, trace_append_calls, trace_append_stages, trace_append_progresses]

theorem convertBody_read_err (s1 : Ctl) (f : VFile) (env : Env) (e : JsErr) (d : List Nat)
    (hf : env.fetchResult = Except.ok d) (hw : env.writeResult = Except.ok ())
    (hx : env.execResult = Except.ok ()) (hr : env.readResult = Except.error e) :
    convertBody s1 f env =
      (catchWith
        { applyProgressEvents { processingState s1 with stageMessage := msgSynth }
            (env.progressEvents.map mapProgress) with
          stageMessage := msgFinal, progress := 98 } e,
       ⟨[EngineCall.deleteFile (inputNameOf f.name), EngineCall.deleteFile outputName,
         EngineCall.writeFile (inputNameOf f.name) d,
         EngineCall.exec (ffmpegArgs (inputNameOf f.name)),
         EngineCall.readFile outputName],
        [Stage.processing, Stage.error],
        8 :: env.progressEvents.map mapProgress ++ [98]⟩) := by
  unfold convertBody
  rw [hf, hw, hx, hr]
  refine Prod.ext rfl ?_
  show Trace.append _ _ = _
  simp [Trace.append, tError, trace_append_calls, trace_append_stages, trace_append_progresses]

theorem convertBody_ok_spec (s1 : Ctl) (f : VFile) (env : Env) (d out : List Nat)
    (hf : env.fetchResult = Except.ok d) (hw : env.writeResult = Except.ok ())
    (hx : env.execResult = Except.ok ()) (hr : env.readResult = Except.ok out) :
    (convertBody s1 f env).1.stage = Stage.complete ∧
    (convertBody s1 f env).1.resultUrl = some s1.nextUrl ∧
    (convertBody s1 f env).1.revoked = s1.revoked ∧
    (convertBody s1 f env).1.urls = s1.urls ++ [(s1.nextUrl, UrlSrc.blob out "video/mp4")] ∧
    (convertBody s1 f env).1.nextUrl = s1.nextUrl + 1 ∧
    (convertBody s1 f env).2.calls =
      [EngineCall.deleteFile (inputNameOf f.name), EngineCall.deleteFile outputName,
       EngineCall.writeFile (inputNameOf f.name) d,
       EngineCall.exec (ffmpegArgs (inputNameOf f.name)),
       EngineCall.readFile outputName] ++ cleanupCallsOf (inputNameOf f.name) env ∧
    (convertBody s1 f env).2.stages = [Stage.processing, Stage.complete] ∧
    (convertBody s1 f env).2.progresses = 8 :: env.progressEvents.map mapProgress ++ [98, 100] := by
  unfold convertBody
  rw [hf, hw, hx, hr]
  refine ⟨rfl, ?_, ?_, ?_, ?_, ?_, ?_, ?_⟩ <;>
    simp [processingState, Trace.append, trace_append_calls, trace_append_stages,
      trace_append_progresses]

/-- The session state produced by a successful bootstrap, before the
conversion body runs. -/
def bootState (s : Ctl) : Ctl :=
  { s with
    ffmpeg := some s.nextEngine
    nextEngine := s.nextEngine + 1
    stage := Stage.ready
    stageMessage := msgCoreReady
    progress := 0 }

theorem handleConvert_cached (s : Ctl) (env : Env) (f : VFile) (h : Nat)
    (hfile : s.fileRef = some f) (heng : s.ffmpeg = some h) :
    handleConvert s env = convertBody s f env := by
  unfold handleConvert ensureFFmpeg
  rw [hfile, heng]
  rfl

theorem handleConvert_boot (s : Ctl) (env : Env) (f : VFile)
    (hfile : s.fileRef = some f) (heng : s.ffmpeg = none)
    (hload : env.loadResult = Except.ok ()) :
    handleConvert s env =
      ((convertBody (bootState s) f env).1,
       (⟨[EngineCall.load], [Stage.loadingCore, Stage.ready], [5, 0]⟩ : Trace) ++
         (convertBody (bootState s) f env).2) := by
  obtain ⟨st, msg, pr, su, ru, fn, er, ff, fr, nu, ne, rv, ur⟩ := s
  replace hfile : fr = some f := hfile
  replace heng : ff = none := heng
  subst hfile
  subst heng
  unfold handleConvert ensureFFmpeg
  rw [hload]
  rfl

theorem handleConvert_boot_err (s : Ctl) (env : Env) (f : VFile) (e : JsErr)
    (hfile : s.fileRef = some f) (heng : s.ffmpeg = none)
    (hload : env.loadResult = Except.error e) :
    handleConvert s env =
      (catchWith { s with stage := Stage.loadingCore, stageMessage := msgBoot, progress := 5 } e,
       ⟨[EngineCall.load], [Stage.loadingCore, Stage.error], [5]⟩) := by
  unfold handleConvert ensureFFmpeg
  rw [hfile, heng, hload]
  rfl

theorem mapProgress_le (p : Rat) : mapProgress p ≤ 97 :=
  min_le_left _ _

theorem mapProgress_mono (p q : Rat) (hpq : p ≤ q) : mapProgress p ≤ mapProgress q := by
  unfold mapProgress
  refine min_le_min le_rfl ?_
  rw [round_eq, round_eq]
  exact Int.floor_le_floor (by linarith)

theorem mapProgress_zero : mapProgress 0 = 0 := by
  norm_num [mapProgress]

theorem mapProgress_nonneg (p : Rat) (hp : 0 ≤ p) : 0 ≤ mapProgress p := by
  have := mapProgress_mono 0 p hp
  rw [mapProgress_zero] at this
  exact this

theorem handleConvert_complete_inv (s : Ctl) (env : Env) (f : VFile)
    (hfile : s.fileRef = some f)
    (hc : (handleConvert s env).1.stage = Stage.complete) :
    ∃ d out, env.fetchResult = Except.ok d ∧ env.writeResult = Except.ok () ∧
      env.execResult = Except.ok () ∧ env.readResult = Except.ok out := by
  have hbody : ∃ s1, (convertBody s1 f env).1.stage = Stage.complete := by
    cases heng : s.ffmpeg with
    | some h => exact ⟨s, by rwa [handleConvert_cached s env f h hfile heng] at hc⟩
    | none =>
      cases hload : env.loadResult with
      | ok u =>
        cases u
        refine ⟨bootState s, ?_⟩
        rwa [handleConvert_boot s env f hfile heng hload] at hc
      | error e =>
        rw [handleConvert_boot_err s env f e hfile heng hload] at hc
        simp [catchWith] at hc
  obtain ⟨s1, hc1⟩ := hbody
  cases hfe : env.fetchResult with
  | error e =>
    rw [convertBody_fetch_err s1 f env e hfe] at hc1
    simp [catchWith] at hc1
  | ok d =>
    cases hwr : env.writeResult with
    | error e =>
      rw [convertBody_write_err s1 f env e d hfe hwr] at hc1
      simp [catchWith] at hc1
    | ok u =>
      cases u
      cases hxr : env.execResult with
      | error e =>
        rw [convertBody_exec_err s1 f env e d hfe hwr hxr] at hc1
        simp [catchWith] at hc1
      | ok u2 =>
        cases u2
        cases hrr : env.readResult with
        | error e =>
          rw [convertBody_read_err s1 f env e d hfe hwr hxr hrr] at hc1
          simp [catchWith] at hc1
        | ok out => exact ⟨d, out, rfl, rfl, rfl, rfl⟩

theorem convertBody_stage_cases (s1 : Ctl) (f : VFile) (env : Env) :
    (convertBody s1 f env).2.stages = [Stage.processing, Stage.complete] ∨
    (convertBody s1 f env).2.stages = [Stage.processing, Stage.error] := by
  cases hfe : env.fetchResult with
  | error e => rw [convertBody_fetch_err s1 f env e hfe]; right; rfl
  | ok d =>
    cases hwr : env.writeResult with
    | error e => rw [convertBody_write_err s1 f env e d hfe hwr]; right; rfl
    | ok u =>
      cases u
      cases hxr : env.execResult with
      | error e => rw [convertBody_exec_err s1 f env e d hfe hwr hxr]; right; rfl
      | ok u2 =>
        cases u2
        cases hrr : env.readResult with
        | error e => rw [convertBody_read_err s1 f env e d hfe hwr hxr hrr]; right; rfl
        | ok out =>
          left
          exact (convertBody_ok_spec s1 f env d out hfe hwr hxr hrr).2.2.2.2.2.2.1

theorem convertBody_outcome (s1 : Ctl) (f : VFile) (env : Env) :
    (convertBody s1 f env).1.stage = Stage.complete ∨
    ((convertBody s1 f env).1.stage = Stage.error ∧
     (convertBody s1 f env).1.resultUrl = s1.resultUrl ∧
     (convertBody s1 f env).1.urls = s1.urls ∧
     ∃ e : JsErr,
       (env.fetchResult = Except.error e ∨ env.writeResult = Except.error e ∨
        env.execResult = Except.error e ∨ env.readResult = Except.error e) ∧
       (convertBody s1 f env).1.error = some (errMsgOf e) ∧
       (convertBody s1 f env).1.stageMessage = catchStageMsg) := by
  cases hfe : env.fetchResult with
  | error e =>
    rw [convertBody_fetch_err s1 f env e hfe]
    exact Or.inr ⟨rfl, rfl, rfl, e, Or.inl rfl, rfl, rfl⟩
  | ok d =>
    cases hwr : env.writeResult with
    | error e =>
      rw [convertBody_write_err s1 f env e d hfe hwr]
      exact Or.inr ⟨rfl, rfl, rfl, e, Or.inr (Or.inl rfl), rfl, rfl⟩
    | ok u =>
      cases u
      cases hxr : env.execResult with
      | error e =>
        rw [convertBody_exec_err s1 f env e d hfe hwr hxr]
        refine Or.inr ⟨rfl, ?_, ?_, e, Or.inr (Or.inr (Or.inl rfl)), rfl, rfl⟩
        · simp [catchWith, processingState]
        · simp [catchWith, processingState]
      | ok u2 =>
        cases u2
        cases hrr : env.readResult with
        | error e =>
          rw [convertBody_read_err s1 f env e d hfe hwr hxr hrr]
          refine Or.inr ⟨rfl, ?_, ?_, e, Or.inr (Or.inr (Or.inr rfl)), rfl, rfl⟩
          · simp [catchWith, processingState]
          · simp [catchWith, processingState]
        | ok out =>
          exact Or.inl (convertBody_ok_spec s1 f env d out hfe hwr hxr hrr).1

/-! Claim theorems. -/

/-- C1: evaluation of the sanitizer at the claimed example inputs.  The
two positive examples of the claim hold (clip.MOV gives extension mov,
clip.tar.gz! gives gz), but the fallback never fires: because the
JavaScript || applies to the whole concatenation (which is never empty),
noext yields source.noext (split of a dotless name returns the whole
name) and clip. yields the dangling name source. instead of the claimed
source.mp4. -/
theorem c1_sanitizer_behavior :
    inputNameOf "clip.MOV" = "source.mov" ∧
    inputNameOf "clip.tar.gz!" = "source.gz" ∧
    inputNameOf "noext" = "source.noext" ∧
    inputNameOf "clip." = "source." := by
  refine ⟨?_, ?_, ?_, ?_⟩ <;> decide

/-- C2 counterexample: requesting conversion from the idle state with no
staged file sets the fixed validation message and performs no engine
interaction, but the Stage field stays idle — it does not transition to
the error stage as the claim states. -/
theorem c2_counterexample :
    (handleConvert stIdle envOk).1.stage = Stage.idle ∧
    (handleConvert stIdle envOk).1.error = some validationMsg ∧
    (handleConvert stIdle envOk).2.calls = [] ∧
    (handleConvert stIdle envOk).2.stages = [] := by
  refine ⟨?_, ?_, ?_, ?_⟩ <;> rfl

/-- C2 amended: for every state with no staged file, requesting
conversion synchronously sets the fixed validation message and returns;
no engine interaction happens, no stage is set (Stage keeps its prior
value rather than becoming error), and no other field changes. -/
theorem c2_amended (s : Ctl) (env : Env) (hfile : s.fileRef = none) :
    handleConvert s env = ({ s with error := some validationMsg }, emptyTrace) := by
  unfold handleConvert
  rw [hfile]

/-- C2 witness: the amended statement instantiated at the idle state. -/
theorem c2_amended_witness :
    handleConvert stIdle envOk = ({ stIdle with error := some validationMsg }, emptyTrace) :=
  c2_amended stIdle envOk rfl

/-- C3 counterexample: starting from a completed conversion whose result
slot holds handle 1, a second successful conversion assigns a fresh
result handle 2 but never revokes handle 1 (the revocation list stays
empty), contradicting the claim that the prior result handle is released
atomically with the assignment. -/
theorem c3_counterexample :
    stComplete.resultUrl = some 1 ∧
    (handleConvert stComplete envOk).1.stage = Stage.complete ∧
    (handleConvert stComplete envOk).1.resultUrl = some 2 ∧
    (handleConvert stComplete envOk).1.revoked = [] := by
  refine ⟨?_, ?_, ?_, ?_⟩ <;> decide

/-- C3 amended: after every successful conversion the result slot holds
exactly one freshly allocated preview handle, but the prior result
handle, if any, is not released by the conversion: the revocation list is
unchanged (the superseded handle is only released later, by resetUrls on
the next file selection or on unmount). -/
theorem c3_amended (s : Ctl) (env : Env) (f : VFile)
    (hfile : s.fileRef = some f)
    (hc : (handleConvert s env).1.stage = Stage.complete) :
    (handleConvert s env).1.resultUrl = some s.nextUrl ∧
    (handleConvert s env).1.revoked = s.revoked := by
  obtain ⟨d, out, hfe, hwr, hxr, hrr⟩ := handleConvert_complete_inv s env f hfile hc
  cases heng : s.ffmpeg with
  | some h =>
    rw [handleConvert_cached s env f h hfile heng]
    have hspec := convertBody_ok_spec s f env d out hfe hwr hxr hrr
    exact ⟨hspec.2.1, hspec.2.2.1⟩
  | none =>
    cases hload : env.loadResult with
    | error e =>
      rw [handleConvert_boot_err s env f e hfile heng hload] at hc
      simp [catchWith] at hc
    | ok u =>
      cases u
      rw [handleConvert_boot s env f hfile heng hload]
      have hspec := convertBody_ok_spec (bootState s) f env d out hfe hwr hxr hrr
      exact ⟨hspec.2.1, hspec.2.2.1⟩

/-- C3 witness: the amended statement instantiated at a state holding a
prior result handle, with a fully successful environment. -/
theorem c3_amended_witness :
    (handleConvert stComplete envOk).1.resultUrl = some stComplete.nextUrl ∧
    (handleConvert stComplete envOk).1.revoked = stComplete.revoked :=
  c3_amended stComplete envOk sampleFile rfl (by decide)

/-- C4 counterexample: while Stage is loadingCore the convert button is
enabled even with a file staged, and invoking the handler from such a
state performs engine interaction (it starts a second bootstrap), so a
re-entrant request during loadingCore is not a no-op. -/
theorem c4_counterexample :
    buttonDisabled Stage.loadingCore true = false ∧
    EngineCall.load ∈ (handleConvert stLoading envOk).2.calls := by
  refine ⟨rfl, ?_⟩
  decide

/-- C4 amended: the control surface blocks re-entrant requests only while
Stage is processing (the button is disabled there whether or not a file
is staged); while Stage is loadingCore the button is enabled, so only the
processing stage has the single-flight guarantee. -/
theorem c4_amended :
    buttonDisabled Stage.processing true = true ∧
    buttonDisabled Stage.processing false = true ∧
    buttonDisabled Stage.loadingCore true = false ∧
    buttonDisabled Stage.loadingCore false = false := by
  refine ⟨rfl, rfl, rfl, rfl⟩

/-- C5 counterexample: with the engine cached, a successful conversion in
which the engine reports the single progress fraction 0 produces the
progress sequence [8, 0, 98, 100], which is not monotonically
non-decreasing (the fixed initial processing value 8 precedes the mapped
callback value 0). -/
theorem c5_counterexample :
    ¬ List.Chain' (fun a b : Int => a ≤ b)
      ((handleConvert stCached envZeroEvent).2.progresses) := by
  have h1 : (handleConvert stCached envZeroEvent).2.progresses
      = 8 :: envZeroEvent.progressEvents.map mapProgress ++ [98, 100] := by
    rw [handleConvert_cached stCached envZeroEvent sampleFile 0 rfl rfl]
    exact (convertBody_ok_spec stCached sampleFile envZeroEvent [1, 2, 3] [9, 9]
      rfl rfl rfl rfl).2.2.2.2.2.2.2
  have h2 : envZeroEvent.progressEvents.map mapProgress = [0] := by
    show [mapProgress 0] = [0]
    rw [mapProgress_zero]
  rw [h1, h2]
  norm_num [List.chain'_cons]

/-- C5 amended: each engine progress fraction p is mapped to
min(97, round(p times 100)), a mapping that is monotone, at most 97, and
non-negative for non-negative fractions; on a successful conversion with
the engine already cached the recorded progress sequence is exactly 8,
then the mapped callback values, then the finalize values 98 and 100.
The full sequence is therefore not guaranteed non-decreasing: the fixed
initial value 8 may exceed early mapped callback values. -/
theorem c5_amended (s : Ctl) (env : Env) (f : VFile) (h : Nat) (d out : List Nat)
    (hfile : s.fileRef = some f) (heng : s.ffmpeg = some h)
    (hfe : env.fetchResult = Except.ok d) (hwr : env.writeResult = Except.ok ())
    (hxr : env.execResult = Except.ok ()) (hrr : env.readResult = Except.ok out) :
    (handleConvert s env).2.progresses
      = 8 :: env.progressEvents.map mapProgress ++ [98, 100] ∧
    (∀ p : Rat, 0 ≤ p → 0 ≤ mapProgress p) ∧
    (∀ p : Rat, mapProgress p ≤ 97) ∧
    (∀ p q : Rat, p ≤ q → mapProgress p ≤ mapProgress q) := by
  refine ⟨?_, fun p hp => mapProgress_nonneg p hp, fun p => mapProgress_le p,
    fun p q hpq => mapProgress_mono p q hpq⟩
  rw [handleConvert_cached s env f h hfile heng]
  exact (convertBody_ok_spec s f env d out hfe hwr hxr hrr).2.2.2.2.2.2.2

/-- C5 witness: the trace-shape part of the amended statement
instantiated at a cached-engine state with a successful environment. -/
theorem c5_amended_witness :
    (handleConvert stCached envOk).2.progresses
      = 8 :: envOk.progressEvents.map mapProgress ++ [98, 100] :=
  (c5_amended stCached envOk sampleFile 0 [1, 2, 3] [9, 9] rfl rfl rfl rfl rfl rfl).1

/-- C6: once a bootstrap has succeeded (an engine handle is cached),
ensureFFmpeg returns the cached handle with the state unchanged and an
empty trace (no load call, no loadingCore stage, no progress writes), and
a conversion requested in such a state proceeds directly to processing:
the first stage set is processing and loadingCore is never entered. -/
theorem c6_ensureReady_idempotent (s : Ctl) (env : Env) (f : VFile) (h : Nat)
    (heng : s.ffmpeg = some h) (hfile : s.fileRef = some f) :
    ensureFFmpeg s env = (Except.ok h, s, emptyTrace) ∧
    (handleConvert s env).2.stages.head? = some Stage.processing ∧
    Stage.loadingCore ∉ (handleConvert s env).2.stages := by
  refine ⟨?_, ?_, ?_⟩
  · unfold ensureFFmpeg
    rw [heng]
  · rw [handleConvert_cached s env f h hfile heng]
    rcases convertBody_stage_cases s f env with hs | hs <;> rw [hs] <;> rfl
  · rw [handleConvert_cached s env f h hfile heng]
    rcases convertBody_stage_cases s f env with hs | hs <;> rw [hs] <;> simp

/-- C6 witness: the statement instantiated at a ready state with the
engine cached. -/
theorem c6_witness :
    ensureFFmpeg stCached envOk = (Except.ok 0, stCached, emptyTrace) ∧
    (handleConvert stCached envOk).2.stages.head? = some Stage.processing ∧
    Stage.loadingCore ∉ (handleConvert stCached envOk).2.stages :=
  c6_ensureReady_idempotent stCached envOk sampleFile 0 rfl rfl

/-- C7: with a file staged, every run of the conversion routine either
completes, or the top-level catch has run: Stage is error, the fixed
catch stage message is shown, the stored error message is the thrown
message of one of the fallible steps (bootstrap, fetch, write, exec, or
read) or the generic fallback when the thrown value carries no message,
and the result preview slot and the allocation log are unchanged (no
result handle is created or replaced on the failure path). -/
theorem c7_failures_caught (s : Ctl) (env : Env) (f : VFile)
    (hfile : s.fileRef = some f) :
    (handleConvert s env).1.stage = Stage.complete ∨
    ((handleConvert s env).1.stage = Stage.error ∧
     (handleConvert s env).1.resultUrl = s.resultUrl ∧
     (handleConvert s env).1.urls = s.urls ∧
     ∃ e : JsErr,
       ((s.ffmpeg = none ∧ env.loadResult = Except.error e) ∨
        env.fetchResult = Except.error e ∨
        env.writeResult = Except.error e ∨
        env.execResult = Except.error e ∨
        env.readResult = Except.error e) ∧
       (handleConvert s env).1.error = some (errMsgOf e) ∧
       (handleConvert s env).1.stageMessage = catchStageMsg) := by
  cases heng : s.ffmpeg with
  | some h =>
    rw [handleConvert_cached s env f h hfile heng]
    rcases convertBody_outcome s f env with hs | ⟨h1, h2, h3, e, hsrc, h4, h5⟩
    · exact Or.inl hs
    · exact Or.inr ⟨h1, h2, h3, e, Or.inr hsrc, h4, h5⟩
  | none =>
    cases hload : env.loadResult with
    | error e =>
      rw [handleConvert_boot_err s env f e hfile heng hload]
      exact Or.inr ⟨rfl, rfl, rfl, e, Or.inl ⟨rfl, rfl⟩, rfl, rfl⟩
    | ok u =>
      cases u
      rw [handleConvert_boot s env f hfile heng hload]
      rcases convertBody_outcome (bootState s) f env with hs | ⟨h1, h2, h3, e, hsrc, h4, h5⟩
      · exact Or.inl hs
      · exact Or.inr ⟨h1, h2, h3, e, Or.inr hsrc, h4, h5⟩

/-- C7 witness: the statement instantiated at a ready state and an
environment whose fetch step throws an Error with message boom. -/
theorem c7_witness :
    (handleConvert stReady envFetchFail).1.stage = Stage.complete ∨
    ((handleConvert stReady envFetchFail).1.stage = Stage.error ∧
     (handleConvert stReady envFetchFail).1.resultUrl = stReady.resultUrl ∧
     (handleConvert stReady envFetchFail).1.urls = stReady.urls ∧
     ∃ e : JsErr,
       ((stReady.ffmpeg = none ∧ envFetchFail.loadResult = Except.error e) ∨
        envFetchFail.fetchResult = Except.error e ∨
        envFetchFail.writeResult = Except.error e ∨
        envFetchFail.execResult = Except.error e ∨
        envFetchFail.readResult = Except.error e) ∧
       (handleConvert stReady envFetchFail).1.error = some (errMsgOf e) ∧
       (handleConvert stReady envFetchFail).1.stageMessage = catchStageMsg) :=
  c7_failures_caught stReady envFetchFail sampleFile rfl

/-- C8: selecting a file from any state moves the controller to ready
with progress 0, releases exactly the previously held source and result
handles (both appended to the revocation list and both slots cleared
before reassignment), allocates exactly one fresh object URL for the
selected file into the source slot (the result slot is left empty), and
clears the error. -/
theorem c8_file_selection (s : Ctl) (f : VFile) :
    (handleFileChange s (some f)).1.stage = Stage.ready ∧
    (handleFileChange s (some f)).1.progress = 0 ∧
    (handleFileChange s (some f)).1.revoked
      = s.revoked ++ s.sourceUrl.toList ++ s.resultUrl.toList ∧
    (handleFileChange s (some f)).1.sourceUrl = some s.nextUrl ∧
    (handleFileChange s (some f)).1.resultUrl = none ∧
    (handleFileChange s (some f)).1.nextUrl = s.nextUrl + 1 ∧
    (handleFileChange s (some f)).1.urls = s.urls ++ [(s.nextUrl, UrlSrc.file f)] ∧
    (handleFileChange s (some f)).1.error = none ∧
    (handleFileChange s (some f)).1.fileRef = some f :=
  ⟨rfl, rfl, rfl, rfl, rfl, rfl, rfl, rfl, rfl⟩

/-- C9: every successful conversion reads its output from the fixed name
realified.mp4 (also the final argument of the fixed exec argument list)
and materializes the result handle from a blob of the output bytes with
the fixed MIME type video/mp4, independent of the input container. -/
theorem c9_output_fixed (s : Ctl) (env : Env) (f : VFile)
    (hfile : s.fileRef = some f)
    (hc : (handleConvert s env).1.stage = Stage.complete) :
    outputName = "realified.mp4" ∧
    (handleConvert s env).1.resultUrl = some s.nextUrl ∧
    (∃ out, env.readResult = Except.ok out ∧
      (handleConvert s env).1.urls
        = s.urls ++ [(s.nextUrl, UrlSrc.blob out "video/mp4")]) ∧
    EngineCall.readFile outputName ∈ (handleConvert s env).2.calls ∧
    EngineCall.exec (ffmpegArgs (inputNameOf f.name)) ∈ (handleConvert s env).2.calls ∧
    (ffmpegArgs (inputNameOf f.name)).getLastD "" = outputName := by
  obtain ⟨d, out, hfe, hwr, hxr, hrr⟩ := handleConvert_complete_inv s env f hfile hc
  cases heng : s.ffmpeg with
  | some h =>
    rw [handleConvert_cached s env f h hfile heng]
    have hspec := convertBody_ok_spec s f env d out hfe hwr hxr hrr
    refine ⟨rfl, hspec.2.1, ⟨out, hrr, hspec.2.2.2.1⟩, ?_, ?_, rfl⟩
    · rw [hspec.2.2.2.2.2.1]
      simp
    · rw [hspec.2.2.2.2.2.1]
      simp
  | none =>
    cases hload : env.loadResult with
    | error e =>
      rw [handleConvert_boot_err s env f e hfile heng hload] at hc
      simp [catchWith] at hc
    | ok u =>
      cases u
      rw [handleConvert_boot s env f hfile heng hload]
      have hspec := convertBody_ok_spec (bootState s) f env d out hfe hwr hxr hrr
      refine ⟨rfl, hspec.2.1, ⟨out, hrr, hspec.2.2.2.1⟩, ?_, ?_, rfl⟩
      · rw [trace_append_calls, hspec.2.2.2.2.2.1]
        simp
      · rw [trace_append_calls, hspec.2.2.2.2.2.1]
        simp

/-- C9 witness: the statement instantiated at a ready state with a fully
successful environment. -/
theorem c9_witness :
    outputName = "realified.mp4" ∧
    (handleConvert stReady envOk).1.resultUrl = some stReady.nextUrl ∧
    (∃ out, envOk.readResult = Except.ok out ∧
      (handleConvert stReady envOk).1.urls
        = stReady.urls ++ [(stReady.nextUrl, UrlSrc.blob out "video/mp4")]) ∧
    EngineCall.readFile outputName ∈ (handleConvert stReady envOk).2.calls ∧
    EngineCall.exec (ffmpegArgs (inputNameOf sampleFile.name))
      ∈ (handleConvert stReady envOk).2.calls ∧
    (ffmpegArgs (inputNameOf sampleFile.name)).getLastD "" = outputName :=
  c9_output_fixed stReady envOk sampleFile rfl (by decide)

/-- C10: a file-selection event carrying no file leaves every field of
the controller state unchanged and produces no engine calls, no stage
writes, and no progress writes. -/
theorem c10_empty_selection (s : Ctl) :
    handleFileChange s none = (s, emptyTrace) := rfl
